import Mathlib

/-!
Verification of the incremental backup and deduplication engine of the
blackblaze2-backup repository (module `src/blackblaze_backup/core.py`),
against its natural-language specification.

The engine is shallowly embedded: the S3 destination-store collaborator is
modelled as a record of response functions (for the decision logic) and as an
explicit key-to-object map for stateful upload runs (per spec section 6, the
store exposes head / list / put; a successful single-part put stores the
file's bytes, so its integrity tag equals the file's content digest).
Local files are modelled by their observable behaviour: size, content digest,
whether hashing succeeds (`get_file_hash` returns "" on IOError), and whether
`stat()` succeeds.  Python float arithmetic in the progress tracker is
modelled by exact rational arithmetic with integer truncation (all values are
nonnegative, so Python `int()` is the floor).
-/

namespace BlackBlaze

/-- Metadata of one object stored in the bucket, as returned by a
`head_object` call: `ContentLength`, `ETag` (quotes not yet stripped), and
the custom `Metadata` map. -/
structure ObjectInfo where
  contentLength : Nat
  etag : String
  metadata : List (String × String)
deriving DecidableEq, Repr

/-- Outcome of a `head_object` probe: found with object info, a NotFound
error (`NoSuchKey`), or any other (transient) error. -/
inductive HeadOutcome
| found (obj : ObjectInfo)
| noSuchKey
| transient
deriving DecidableEq, Repr

/-- Outcome of paginated `list_objects_v2` over a bucket: either the full key
listing, or a failure partway through pagination after having yielded the
`scanned` keys (the code's per-page loop processes those before the next page
request raises). -/
inductive ListOutcome
| ok (keys : List String)
| failurePartial (scanned : List String)
deriving DecidableEq, Repr

/-- The destination-store client as seen by the decision logic: response
behaviour of `head_object` and of a full `list_objects_v2` pagination. -/
structure S3Client where
  head : String → String → HeadOutcome
  listObjects : String → ListOutcome

/-- A local file, by its observable behaviour during one pass: byte size,
content digest of its bytes (an md5 hex string for a real file), whether
hashing it succeeds (`get_file_hash` catches IOError and returns ""), and
whether `stat()` succeeds (a vanished file raises). -/
structure LocalFile where
  size : Nat
  digest : String
  readable : Bool
  statOk : Bool
deriving DecidableEq, Repr

/-- Embeds `utils.get_file_hash`: the md5 hex digest of the file, or the
empty string when reading the file raises IOError. -/
def get_file_hash (f : LocalFile) : String :=
  if f.readable then f.digest else ""

/-- The double quote character. -/
def quoteChar : Char := Char.ofNat 34

/-- The dash character, the multi-part ETag separator. -/
def dashChar : Char := Char.ofNat 45

/-- Drops every trailing occurrence of a character from a character list. -/
def dropTrailing (c : Char) (l : List Char) : List Char :=
  (l.reverse.dropWhile (fun x => x = c)).reverse

/-- Embeds Python `s.strip(chr(34))`: removes all leading and trailing double
quotes, as applied to the raw ETag header value. -/
def stripQuotes (s : String) : String :=
  String.mk (dropTrailing quoteChar (s.data.dropWhile (fun x => x = quoteChar)))

/-- True when the ETag contains a dash, i.e. has the multi-part form
`hash-partcount`. -/
def hasDash (s : String) : Bool :=
  s.data.contains dashChar

/-- Embeds `s.split(chr(45))[0]`: the segment of the ETag before the first
dash. -/
def etagLead (s : String) : String :=
  String.mk (s.data.takeWhile (fun c => c ≠ dashChar))

/-- One object of a bucket listing has matching `file-hash` metadata when its
`head_object` call succeeds and its metadata maps `file-hash` to the digest;
objects whose metadata cannot be read are skipped. -/
def objHasHash (client : S3Client) (bucket s3Key fileHash : String) : Bool :=
  match client.head bucket s3Key with
  | HeadOutcome.found obj => obj.metadata.lookup "file-hash" == some fileHash
  | HeadOutcome.noSuchKey => false
  | HeadOutcome.transient => false

/-- Embeds `BackupManager._file_content_exists_in_s3`: paginate the bucket
listing, probing each listed object's metadata for a matching `file-hash`.
A pagination failure partway aborts the loop; the surrounding handler then
returns False unless a match had already been found among the scanned keys
(the loop returns True early on a match). -/
def file_content_exists_in_s3 (client : S3Client) (bucket fileHash : String) : Bool :=
  match client.listObjects bucket with
  | ListOutcome.ok keys => keys.any (fun k => objHasHash client bucket k fileHash)
  | ListOutcome.failurePartial scanned =>
      scanned.any (fun k => objHasHash client bucket k fileHash)

/-- The network operations issued against the store, for counting listings. -/
inductive S3Op
| listing (bucket : String)
| headObj (bucket s3Key : String)
deriving DecidableEq, Repr

/-- Instrumented version of `file_content_exists_in_s3`, additionally
returning the store operations the call issues: one full listing per call,
plus a metadata probe per listed (or scanned) key. -/
def file_content_exists_in_s3_ops (client : S3Client) (bucket fileHash : String) :
    Bool × List S3Op :=
  match client.listObjects bucket with
  | ListOutcome.ok keys =>
      (keys.any (fun k => objHasHash client bucket k fileHash),
        S3Op.listing bucket :: keys.map (fun k => S3Op.headObj bucket k))
  | ListOutcome.failurePartial scanned =>
      (scanned.any (fun k => objHasHash client bucket k fileHash),
        S3Op.listing bucket :: scanned.map (fun k => S3Op.headObj bucket k))

/-- Counts the full bucket listings in an operation trace. -/
def countListings (ops : List S3Op) : Nat :=
  ops.countP (fun op => match op with | S3Op.listing _ => true | _ => false)

/-- The operation trace of a sequence of digest lookups performed within one
backup pass: `BackupManager` holds no digest index between the calls (its only
field is the cancellation flag), so each lookup runs
`_file_content_exists_in_s3` afresh. -/
def digest_lookup_pass_ops (client : S3Client) (bucket : String)
    (digests : List String) : List S3Op :=
  (digests.map (fun d => (file_content_exists_in_s3_ops client bucket d).2)).flatten

/-- Three-way reading of the decision `should_upload_file` makes: the
function returns True for an upload; its False returns are reached either on
the unchanged-file path or on the duplicate-content path. -/
inductive Decision
| upload
| skipUnchanged
| skipDuplicate
deriving DecidableEq, Repr

/-- Embeds `BackupManager.should_upload_file`, with the two False-returning
paths distinguished as `skipUnchanged` and `skipDuplicate`.  Branch for
branch: incremental disabled, always upload; a failed `stat()` raises into
the outer handler, upload; an empty hash, upload; otherwise probe the exact
key: found with a size difference, upload; found with an ETag that (after
quote stripping, and splitting a multi-part tag on the dash) differs from the
local hash, upload; found and matching (or with an empty ETag), skip as
unchanged; `NoSuchKey`, or any other probe error, fall through to the
deduplication lookup when it is enabled, returning skip-duplicate on a match
and upload otherwise. -/
def should_upload_decision (client : S3Client) (f : LocalFile)
    (bucket s3Key : String) (incremental dedup : Bool) : Decision :=
  if incremental = false then Decision.upload
  else if f.statOk = false then Decision.upload
  else
    let localHash := get_file_hash f
    if localHash = "" then Decision.upload
    else
      match client.head bucket s3Key with
      | HeadOutcome.found obj =>
          let s3Etag := stripQuotes obj.etag
          if f.size ≠ obj.contentLength then Decision.upload
          else if s3Etag ≠ "" then
            if hasDash s3Etag then
              if localHash ≠ etagLead s3Etag then Decision.upload
              else Decision.skipUnchanged
            else
              if localHash ≠ s3Etag then Decision.upload
              else Decision.skipUnchanged
          else Decision.skipUnchanged
      | HeadOutcome.noSuchKey =>
          if dedup && file_content_exists_in_s3 client bucket localHash then
            Decision.skipDuplicate
          else Decision.upload
      | HeadOutcome.transient =>
          if dedup && file_content_exists_in_s3 client bucket localHash then
            Decision.skipDuplicate
          else Decision.upload

/-- The Boolean actually returned by `should_upload_file`. -/
def should_upload_file (client : S3Client) (f : LocalFile)
    (bucket s3Key : String) (incremental dedup : Bool) : Bool :=
  match should_upload_decision client f bucket s3Key incremental dedup with
  | Decision.upload => true
  | _ => false

/-- The destination bucket's contents, as a key-to-object map (later puts
shadow earlier ones at the same key). -/
structure StoreState where
  objects : List (String × ObjectInfo)
deriving DecidableEq, Repr

/-- The empty bucket. -/
def emptyStore : StoreState := StoreState.mk []

/-- Stores an object at a key, overwriting any previous object there. -/
def putObject (store : StoreState) (s3Key : String) (obj : ObjectInfo) : StoreState :=
  StoreState.mk ((s3Key, obj) :: store.objects.filter (fun kv => kv.1 != s3Key))

/-- Derives the client behaviour from a bucket state: `head_object` finds the
stored object or raises `NoSuchKey`; the listing yields every stored key. -/
def clientOfStore (store : StoreState) : S3Client :=
  S3Client.mk
    (fun _bucket s3Key =>
      match store.objects.lookup s3Key with
      | some obj => HeadOutcome.found obj
      | none => HeadOutcome.noSuchKey)
    (fun _bucket => ListOutcome.ok (store.objects.map (fun kv => kv.1)))

/-- Embeds `BackupManager.upload_file` acting on the modelled store: compute
the file's hash; when it is non-empty, attach `file-hash` and `file-size`
(read via `stat()`, whose failure raises into the handler and fails the
upload) as object metadata, otherwise upload with no metadata; the stored
object's integrity tag is the digest of the uploaded bytes (single-part
put, per spec section 6). Returns the new store and the success Boolean. -/
def upload_file (store : StoreState) (f : LocalFile) (_bucket s3Key : String) :
    StoreState × Bool :=
  let fileHash := get_file_hash f
  if fileHash = "" then
    (putObject store s3Key (ObjectInfo.mk f.size f.digest []), true)
  else if f.statOk = false then
    (store, false)
  else
    (putObject store s3Key
      (ObjectInfo.mk f.size f.digest
        [("file-hash", fileHash), ("file-size", toString f.size)]), true)

/-- Embeds the mutable state of `BackupProgressTracker`. -/
structure BackupProgressTracker where
  total_folders : Nat
  completed_folders : Nat
  total_files : Nat
  completed_files : Nat
  current_folder : String
deriving DecidableEq, Repr

/-- Embeds `BackupProgressTracker.start_backup`: reset every counter; the
folder total is the size of the backup plan. -/
def start_backup (planSize : Nat) : BackupProgressTracker :=
  BackupProgressTracker.mk planSize 0 0 0 ""

/-- Embeds `BackupProgressTracker.start_folder`: record the current folder,
add its file count to the running file total (the code accumulates with
`+=`), and reset the completed-file counter. -/
def start_folder (t : BackupProgressTracker) (folder : String) (fileCount : Nat) :
    BackupProgressTracker :=
  BackupProgressTracker.mk t.total_folders t.completed_folders
    (t.total_files + fileCount) 0 folder

/-- Embeds `BackupProgressTracker.complete_file`. -/
def complete_file (t : BackupProgressTracker) : BackupProgressTracker :=
  BackupProgressTracker.mk t.total_folders t.completed_folders
    t.total_files (t.completed_files + 1) t.current_folder

/-- Embeds `BackupProgressTracker.complete_folder`. -/
def complete_folder (t : BackupProgressTracker) : BackupProgressTracker :=
  BackupProgressTracker.mk t.total_folders (t.completed_folders + 1)
    t.total_files t.completed_files t.current_folder

/-- Embeds `BackupProgressTracker.get_overall_progress`, with Python float
division modelled by exact rational division (every quantity is nonnegative,
so `int()` truncation is the floor): zero folders give 0; all folders
completed give 100; otherwise the completed-folder fraction, plus the file
fraction of the running totals scaled by the folder total whenever a current
folder is set and the running file total is positive, scaled to percent and
truncated. -/
def get_overall_progress (t : BackupProgressTracker) : Int :=
  if t.total_folders = 0 then 0
  else if t.total_folders ≤ t.completed_folders then 100
  else if t.current_folder ≠ "" ∧ 0 < t.total_files then
    ⌊((t.completed_folders : ℚ) / (t.total_folders : ℚ) +
      ((t.completed_files : ℚ) / (t.total_files : ℚ)) / (t.total_folders : ℚ)) * 100⌋
  else ⌊((t.completed_folders : ℚ) / (t.total_folders : ℚ)) * 100⌋

/-- The three callback channels of `execute_backup`, as one tagged event
stream: progress percentages, status lines, error lines. -/
inductive Event
| progress (percent : Int)
| status (message : String)
| error (message : String)
deriving DecidableEq, Repr

/-- One folder of the backup plan: its local path, the destination bucket,
and the enumerated files, each given by its path relative to the folder. -/
structure FolderPlan where
  path : String
  bucket : String
  files : List (String × LocalFile)
deriving Repr

/-- Embeds `BackupManager.calculate_s3_key`: the folder's base name followed
by the relative path, with backslashes normalized to forward slashes. -/
def calculate_s3_key (folderName relPath : String) : String :=
  String.mk ((folderName ++ "/" ++ relPath).data.map
    (fun c => if c = Char.ofNat 92 then Char.ofNat 47 else c))

/-- The execution state of one `execute_backup` pass: the destination store,
the tracker, the chronological event stream, the number of reads of the
cancellation flag so far, plus two ghost logs recording which destination
keys were submitted to the decision engine and which were submitted to
`upload_file`. -/
structure World where
  store : StoreState
  tracker : BackupProgressTracker
  events : List Event
  flagReads : Nat
  decided : List (String × Decision)
  uploads : List String
deriving Repr

/-- Appends one callback event. -/
def emit (w : World) (e : Event) : World :=
  World.mk w.store w.tracker (w.events ++ [e]) w.flagReads w.decided w.uploads

/-- The cancellation flag is set once by the caller and never cleared during
a pass; it is modelled by the index of the flag read from which it appears
set (`none` for a pass that is never cancelled). -/
def flagValue (cancelFrom : Option Nat) (readIndex : Nat) : Bool :=
  match cancelFrom with
  | none => false
  | some j => j ≤ readIndex

/-- Reads the cancellation flag once, returning its value and advancing the
read counter. -/
def readFlag (cancelFrom : Option Nat) (w : World) : Bool × World :=
  (flagValue cancelFrom w.flagReads,
    World.mk w.store w.tracker w.events (w.flagReads + 1) w.decided w.uploads)

/-- Embeds the per-file body of the upload loop in
`BackupService.execute_backup`: compute the key, ask the decision engine,
then either upload (status line, then on success complete the file and emit
progress, on failure emit the per-file error) or skip (status line, complete
the file, emit progress). -/
def processFile (w : World) (bucket folderName : String)
    (entry : String × LocalFile) (incremental dedup : Bool) : World :=
  let s3Key := calculate_s3_key folderName entry.1
  let d := should_upload_decision (clientOfStore w.store) entry.2 bucket s3Key
    incremental dedup
  let w := World.mk w.store w.tracker w.events w.flagReads
    (w.decided ++ [(s3Key, d)]) w.uploads
  match d with
  | Decision.upload =>
      let w := emit w (Event.status ("Uploading: " ++ entry.1))
      let w := World.mk w.store w.tracker w.events w.flagReads w.decided
        (w.uploads ++ [s3Key])
      match upload_file w.store entry.2 bucket s3Key with
      | (store1, true) =>
          let w := World.mk store1 (complete_file w.tracker) w.events
            w.flagReads w.decided w.uploads
          emit w (Event.progress (get_overall_progress w.tracker))
      | (store1, false) =>
          let w := World.mk store1 w.tracker w.events w.flagReads w.decided
            w.uploads
          emit w (Event.error ("Failed to upload: " ++ entry.1))
  | _ =>
      let w := emit w (Event.status ("Skipping unchanged: " ++ entry.1))
      let w := World.mk w.store (complete_file w.tracker) w.events w.flagReads
        w.decided w.uploads
      emit w (Event.progress (get_overall_progress w.tracker))

/-- Embeds the file loop: poll the cancellation flag before each file and
break when it is set, otherwise process the file and continue. -/
def runFiles (cancelFrom : Option Nat) (w : World) (bucket folderName : String)
    (files : List (String × LocalFile)) (incremental dedup : Bool) : World :=
  match files with
  | [] => w
  | entry :: rest =>
      match readFlag cancelFrom w with
      | (true, w1) => w1
      | (false, w1) =>
          runFiles cancelFrom (processFile w1 bucket folderName entry incremental dedup)
            bucket folderName rest incremental dedup

/-- Embeds the folder loop: poll the flag before each folder and break when
set; otherwise emit the folder status line, start the folder (with the
enumerated file count), run the file loop, complete the folder and emit
progress, then continue with the remaining plan. -/
def runFolders (cancelFrom : Option Nat) (w : World) (plan : List FolderPlan)
    (incremental dedup : Bool) : World :=
  match plan with
  | [] => w
  | fp :: rest =>
      match readFlag cancelFrom w with
      | (true, w1) => w1
      | (false, w1) =>
          let w2 := emit w1 (Event.status ("Backing up: " ++ fp.path))
          let w3 := World.mk w2.store (start_folder w2.tracker fp.path fp.files.length)
            w2.events w2.flagReads w2.decided w2.uploads
          let w4 := runFiles cancelFrom w3 fp.bucket fp.path fp.files incremental dedup
          let w5 := World.mk w4.store (complete_folder w4.tracker) w4.events
            w4.flagReads w4.decided w4.uploads
          let w6 := emit w5 (Event.progress (get_overall_progress w5.tracker))
          runFolders cancelFrom w6 rest incremental dedup

/-- Embeds the engine loop of `BackupService.execute_backup` (after
successful configuration validation, credential load and client creation):
initialize the tracker from the plan size, run the folder loop, then read the
cancellation flag a final time; when clear, emit the completion status and a
forced 100-percent progress and return True, otherwise emit the cancelled
status and return False. -/
def execute_backup (plan : List FolderPlan) (incremental dedup : Bool)
    (cancelFrom : Option Nat) (store : StoreState) : World × Bool :=
  let w0 := World.mk store (start_backup plan.length) [] 0 [] []
  let w1 := runFolders cancelFrom w0 plan incremental dedup
  match readFlag cancelFrom w1 with
  | (false, w2) =>
      let w3 := emit w2 (Event.status "Backup completed successfully!")
      (emit w3 (Event.progress 100), true)
  | (true, w2) =>
      (emit w2 (Event.status "Backup cancelled"), false)

/-!
Claim C10: a size mismatch at the exact key forces an upload regardless of
digest values.
-/

/-- C10: for every file with incremental enabled, if a remote object exists
at the file's exact destination key and its stored size differs from the
local file's size, the decision is Upload, whatever the local and remote
digest values are (the ETag of the remote object is unconstrained here, so
the statement covers equal digests in particular). -/
theorem c10_size_mismatch_upload (client : S3Client) (f : LocalFile)
    (bucket s3Key : String) (dedup : Bool) (obj : ObjectInfo)
    (hstat : f.statOk = true) (hhash : get_file_hash f ≠ "")
    (hhead : client.head bucket s3Key = HeadOutcome.found obj)
    (hsize : f.size ≠ obj.contentLength) :
    should_upload_decision client f bucket s3Key true dedup = Decision.upload := by
  simp [should_upload_decision, hstat, hhash, hhead, hsize]

/-- Concrete client for the C10 witness: the destination key holds a 5-byte
object whose integrity tag equals the local file's digest. -/
def c10client : S3Client :=
  S3Client.mk (fun _ _ => HeadOutcome.found (ObjectInfo.mk 5 "d" []))
    (fun _ => ListOutcome.ok [])

/-- Local file for the C10 witness: 3 bytes, same digest as the remote tag. -/
def c10file : LocalFile := LocalFile.mk 3 "d" true true

/-- Witness for C10 at a concrete input where the local and remote digests
are equal and only the sizes differ. -/
theorem c10_size_mismatch_upload_witness :
    get_file_hash c10file = stripQuotes (ObjectInfo.mk 5 "d" []).etag ∧
    should_upload_decision c10client c10file "b" "k" true true = Decision.upload :=
  ⟨by decide,
   c10_size_mismatch_upload c10client c10file "b" "k" true (ObjectInfo.mk 5 "d" [])
     rfl (by decide) rfl (by decide)⟩

/-!
Claim C9: with no object at the exact key but matching `file-hash` metadata
elsewhere in the bucket and deduplication enabled, the decision is
SkipDuplicate.
-/

/-- C9: with incremental and deduplication enabled, if the probe of the exact
destination key reports NotFound, and some listed object of the bucket
carries `file-hash` metadata equal to the file's content digest, the decision
is SkipDuplicate. -/
theorem c9_dedup_skip (client : S3Client) (f : LocalFile) (bucket s3Key : String)
    (keys : List String) (k2 : String) (obj2 : ObjectInfo)
    (hstat : f.statOk = true) (hhash : get_file_hash f ≠ "")
    (hhead : client.head bucket s3Key = HeadOutcome.noSuchKey)
    (hlist : client.listObjects bucket = ListOutcome.ok keys)
    (hk2 : k2 ∈ keys)
    (hobj2 : client.head bucket k2 = HeadOutcome.found obj2)
    (hmeta : obj2.metadata.lookup "file-hash" = some (get_file_hash f)) :
    should_upload_decision client f bucket s3Key true true = Decision.skipDuplicate := by
  have hex : file_content_exists_in_s3 client bucket (get_file_hash f) = true := by
    unfold file_content_exists_in_s3
    rw [hlist, List.any_eq_true]
    exact ⟨k2, hk2, by simp [objHasHash, hobj2, hmeta]⟩
  simp [should_upload_decision, hstat, hhash, hhead, hex]

/-- Concrete client for the C9 witness: the bucket holds one object at
another key whose `file-hash` metadata matches the local digest. -/
def c9client : S3Client :=
  S3Client.mk
    (fun _ k =>
      if k = "other" then HeadOutcome.found (ObjectInfo.mk 4 "h1" [("file-hash", "h1")])
      else HeadOutcome.noSuchKey)
    (fun _ => ListOutcome.ok ["other"])

/-- Local file for the C9 witness. -/
def c9file : LocalFile := LocalFile.mk 4 "h1" true true

/-- Witness for C9 at a concrete input. -/
theorem c9_dedup_skip_witness :
    should_upload_decision c9client c9file "b" "target" true true = Decision.skipDuplicate :=
  c9_dedup_skip c9client c9file "b" "target" ["other"] "other"
    (ObjectInfo.mk 4 "h1" [("file-hash", "h1")])
    rfl (by decide) (by decide) rfl (by decide) (by decide) (by decide)

/-!
Claim C1: the spec says a transient probe failure always yields Upload.  In
the code, the handler for non-NotFound probe errors still performs the
deduplication lookup when it is enabled, and returns False (SkipDuplicate) on
a match, so the claim fails; the fail-open default applies only when the
lookup is disabled or finds nothing.
-/

/-- Concrete client refuting C1: the probe of the target key fails with a
transient error while another object in the bucket carries matching
`file-hash` metadata. -/
def c1client : S3Client :=
  S3Client.mk
    (fun _ k =>
      if k = "other" then HeadOutcome.found (ObjectInfo.mk 7 "d" [("file-hash", "d")])
      else HeadOutcome.transient)
    (fun _ => ListOutcome.ok ["other"])

/-- Local file for the C1 counterexample. -/
def c1file : LocalFile := LocalFile.mk 7 "d" true true

/-- Counterexample to C1: with a transient probe error, incremental and
deduplication enabled and a matching digest elsewhere in the bucket, the
decision is SkipDuplicate, not Upload. -/
theorem c1_transient_counterexample :
    c1client.head "b" "k" = HeadOutcome.transient ∧
    should_upload_decision c1client c1file "b" "k" true true = Decision.skipDuplicate := by
  decide

/-- C1 amended: when the metadata probe of the exact destination key fails
with a transient (non-NotFound) error, the decision is Upload whenever
deduplication is disabled or the bucket-wide digest lookup finds no match;
but when deduplication is enabled and the lookup finds a matching digest, the
decision is SkipDuplicate. -/
theorem c1_transient_fail_open (client : S3Client) (f : LocalFile)
    (bucket s3Key : String) (dedup : Bool)
    (hstat : f.statOk = true) (hhash : get_file_hash f ≠ "")
    (hhead : client.head bucket s3Key = HeadOutcome.transient) :
    (dedup = false ∨ file_content_exists_in_s3 client bucket (get_file_hash f) = false →
      should_upload_decision client f bucket s3Key true dedup = Decision.upload) ∧
    (dedup = true → file_content_exists_in_s3 client bucket (get_file_hash f) = true →
      should_upload_decision client f bucket s3Key true dedup = Decision.skipDuplicate) := by
  have hbase : should_upload_decision client f bucket s3Key true dedup =
      (if dedup && file_content_exists_in_s3 client bucket (get_file_hash f) then
        Decision.skipDuplicate else Decision.upload) := by
    simp [should_upload_decision, hstat, hhash, hhead]
  constructor
  · intro h
    rw [hbase]
    rcases h with h | h
    · simp [h]
    · simp [h]
  · intro hd hex
    rw [hbase, hd, hex]
    simp

/-- Witness for amended C1, exercising the fail-open branch with
deduplication disabled at a concrete input. -/
theorem c1_transient_fail_open_witness :
    c1client.head "b" "k" = HeadOutcome.transient ∧
    should_upload_decision c1client c1file "b" "k" true false = Decision.upload :=
  ⟨by decide,
   (c1_transient_fail_open c1client c1file "b" "k" false rfl (by decide) (by decide)).1
     (Or.inl rfl)⟩

/-!
Claim C5: the spec says every uploaded object carries `file-hash` and
`file-size` metadata.  In the code, metadata is attached only when the hash
computation succeeded; a file whose hash read failed is still uploaded, with
no metadata at all.
-/

/-- Local file refuting C5: hashing fails (IOError), the upload itself
succeeds. -/
def c5file : LocalFile := LocalFile.mk 10 "d" false true

/-- Counterexample to C5: the upload of a file whose hash computation failed
succeeds and stores an object carrying neither `file-hash` nor `file-size`
metadata. -/
theorem c5_metadata_counterexample :
    (upload_file emptyStore c5file "b" "k").2 = true ∧
    (upload_file emptyStore c5file "b" "k").1.objects.lookup "k" =
      some (ObjectInfo.mk 10 "d" []) ∧
    (ObjectInfo.mk 10 "d" [] : ObjectInfo).metadata.lookup "file-hash" = none ∧
    (ObjectInfo.mk 10 "d" [] : ObjectInfo).metadata.lookup "file-size" = none := by
  decide

/-- C5 amended: every uploaded object for which the content digest was
computed carries `file-hash` (the digest) and `file-size` (the size rendered
in decimal) as metadata; when the digest computation fails the file is
uploaded without these keys. -/
theorem c5_metadata_attached (store : StoreState) (f : LocalFile)
    (bucket s3Key : String)
    (hread : f.readable = true) (hstat : f.statOk = true) (hdig : f.digest ≠ "") :
    (upload_file store f bucket s3Key).2 = true ∧
    (upload_file store f bucket s3Key).1.objects.lookup s3Key =
      some (ObjectInfo.mk f.size f.digest
        [("file-hash", f.digest), ("file-size", toString f.size)]) := by
  have hh : get_file_hash f = f.digest := by simp [get_file_hash, hread]
  unfold upload_file
  rw [hh]
  simp [hdig, hstat, putObject, List.lookup]

/-- Witness for amended C5 at a concrete input. -/
theorem c5_metadata_attached_witness :
    (upload_file emptyStore (LocalFile.mk 3 "abc" true true) "b" "k").2 = true :=
  (c5_metadata_attached emptyStore (LocalFile.mk 3 "abc" true true) "b" "k"
    rfl rfl (by decide)).1

/-!
Claim C2: the spec says the bucket-wide digest index is built by a full
listing at most once per pass and reused, and that a partway listing failure
leaves lookups reporting NotFound for the rest of the pass.  The code keeps
no index at all: every `_file_content_exists_in_s3` call performs its own
full listing, and a partway failure affects only that call (which can even
report a match found among the keys scanned before the failure).
-/

/-- Concrete client refuting C2: an empty bucket listing. -/
def c2clientA : S3Client :=
  S3Client.mk (fun _ _ => HeadOutcome.noSuchKey) (fun _ => ListOutcome.ok [])

/-- Counterexample to C2: a pass that performs two digest lookups against the
same bucket issues two full listings, not at most one. -/
theorem c2_index_counterexample :
    ¬ countListings (digest_lookup_pass_ops c2clientA "b" ["d1", "d2"]) ≤ 1 := by
  decide

/-- C2 amended: no digest index is cached within a pass; every digest lookup
issues exactly one full listing of the bucket (so a pass with n lookups
issues n listings), and a listing that fails partway affects only that call,
which reports NotFound whenever no object scanned before the failure
matched. -/
theorem c2_index_rebuilt_each_call (client : S3Client) (bucket : String)
    (digests : List String) :
    countListings (digest_lookup_pass_ops client bucket digests) = digests.length ∧
    (∀ scanned : List String,
      client.listObjects bucket = ListOutcome.failurePartial scanned →
      ∀ d : String, (∀ k ∈ scanned, objHasHash client bucket k d = false) →
        file_content_exists_in_s3 client bucket d = false) := by
  constructor
  · induction digests with
    | nil => simp [digest_lookup_pass_ops, countListings]
    | cons d rest ih =>
        have hcall : countListings (file_content_exists_in_s3_ops client bucket d).2 = 1 := by
          unfold file_content_exists_in_s3_ops countListings
          cases client.listObjects bucket with
          | ok keys => simp [List.countP_cons, List.countP_map, Function.comp]
          | failurePartial scanned => simp [List.countP_cons, List.countP_map, Function.comp]
        have hsplit :
            digest_lookup_pass_ops client bucket (d :: rest) =
              (file_content_exists_in_s3_ops client bucket d).2 ++
                digest_lookup_pass_ops client bucket rest := by
          simp [digest_lookup_pass_ops]
        rw [hsplit]
        unfold countListings at *
        rw [List.countP_append, hcall, ih]
        simp [Nat.add_comm]
  · intro scanned hfail d hnone
    unfold file_content_exists_in_s3
    rw [hfail]
    rw [List.any_eq_false]
    intro k hk
    simp [hnone k hk]

/-- Concrete client for the C2 witness: the listing fails partway with one
scanned key that does not match. -/
def c2clientF : S3Client :=
  S3Client.mk (fun _ _ => HeadOutcome.noSuchKey)
    (fun _ => ListOutcome.failurePartial ["x"])

/-- Witness for amended C2 at a concrete input: the failing-listing call
reports NotFound, and a one-lookup pass issues exactly one listing. -/
theorem c2_index_rebuilt_each_call_witness :
    file_content_exists_in_s3 c2clientF "b" "d" = false ∧
    countListings (digest_lookup_pass_ops c2clientF "b" ["d"]) = 1 :=
  ⟨(c2_index_rebuilt_each_call c2clientF "b" ["d"]).2 ["x"] rfl "d" (by decide),
   (c2_index_rebuilt_each_call c2clientF "b" ["d"]).1⟩

/-!
Claim C3: the spec formula uses the current folder's own file count as the
fractional denominator.  In the code, `start_folder` accumulates file counts
across folders (`total_files += file_count`), so from the second folder on
the denominator is the cumulative count, not the current folder's own.
-/

/-- Floor of a quotient of natural number casts is natural division. -/
lemma intFloor_natCast_div (a b : ℕ) : ⌊(a : ℚ) / (b : ℚ)⌋ = ((a / b : ℕ) : ℤ) := by
  rw [← Int.natCast_floor_eq_floor (by positivity), Nat.floor_div_eq_div]

/-- Modelled from the spec, claim C3's formula: overall percent with the
CURRENT folder's own file count `currentTotal` as the fractional
denominator — 100 when all folders are complete, 0 when there are no
folders, otherwise the floor of the mixed fraction, a zero current file
count contributing 0. -/
def spec_overall_percent (totalFolders completedFolders currentTotal currentCompleted : ℕ) : Int :=
  if totalFolders = 0 then 0
  else if totalFolders ≤ completedFolders then 100
  else if 0 < currentTotal then
    ⌊((completedFolders : ℚ) + (currentCompleted : ℚ) / (currentTotal : ℚ)) * 100 /
      (totalFolders : ℚ)⌋
  else ⌊(completedFolders : ℚ) * 100 / (totalFolders : ℚ)⌋

/-- Counterexample to C3: two folders of one file each; after completing the
first folder and the single file of the second, the tracker reports 75
(cumulative denominator 2), while the claim's formula with the current
folder's own file count (1 of 1 complete) yields 100. -/
theorem c3_denominator_counterexample :
    get_overall_progress
      (complete_file (start_folder
        (complete_folder (complete_file (start_folder (start_backup 2) "A" 1)))
        "B" 1)) = 75 ∧
    (complete_file (start_folder
        (complete_folder (complete_file (start_folder (start_backup 2) "A" 1)))
        "B" 1)).total_files = 2 ∧
    spec_overall_percent 2 1 1 1 = 100 ∧
    (75 : Int) ≠ 100 := by
  refine ⟨?_, by decide, ?_, by decide⟩
  · norm_num [start_backup, start_folder, complete_file, complete_folder,
      get_overall_progress]
    decide
  · norm_num [spec_overall_percent]

/-- The overall-percent formula the code actually computes, written as one
natural-division expression over the tracker's cumulative counters. -/
def cumulative_overall_percent (totalFolders completedFolders totalFiles completedFiles : ℕ)
    (currentFolder : String) : Int :=
  if totalFolders = 0 then 0
  else if totalFolders ≤ completedFolders then 100
  else if currentFolder ≠ "" ∧ 0 < totalFiles then
    (((100 * (completedFolders * totalFiles + completedFiles)) /
      (totalFolders * totalFiles) : ℕ) : ℤ)
  else (((100 * completedFolders) / totalFolders : ℕ) : ℤ)

/-- C3 amended: `get_overall_progress` equals the claim's formula only with
the cumulative file totals substituted for the current folder's own counts:
100 when all folders are complete, 0 with no folders, and otherwise the floor
of `100 * (completed_folders * total_files + completed_files) /
(total_folders * total_files)` where `total_files` is the running sum of the
file counts of every folder started so far in the pass (an unset current
folder or a zero running total contributing 0). -/
theorem c3_cumulative_denominator (t : BackupProgressTracker) :
    get_overall_progress t =
      cumulative_overall_percent t.total_folders t.completed_folders t.total_files
        t.completed_files t.current_folder := by
  unfold get_overall_progress cumulative_overall_percent
  by_cases h0 : t.total_folders = 0
  · simp [h0]
  · simp only [h0, if_false]
    by_cases h1 : t.total_folders ≤ t.completed_folders
    · simp [h1]
    · simp only [h1, if_false]
      have hT : (t.total_folders : ℚ) ≠ 0 := Nat.cast_ne_zero.mpr h0
      by_cases h2 : t.current_folder ≠ "" ∧ 0 < t.total_files
      · rw [if_pos h2, if_pos h2, ← intFloor_natCast_div]
        have h2b := h2.2
        have htf : (t.total_files : ℚ) ≠ 0 := Nat.cast_ne_zero.mpr (by omega)
        congr 1
        push_cast
        field_simp
        ring
      · rw [if_neg h2, if_neg h2, ← intFloor_natCast_div]
        congr 1
        push_cast
        field_simp
        ring

/-!
Claim C6: the spec says progress never decreases and reaches exactly 100
only when all folders are completed.  Monotonicity under `complete_file` and
`complete_folder` holds, but the 100-only-at-the-end part fails: completing
all files of the current folder and then the folder itself yields 100 as soon
as the completed-folder count reaches one less than the total, because the
still-set current folder keeps contributing a full fractional share.
-/

/-- The fractional contribution of the current folder to the overall
percentage (zero when no folder is current or no files are counted). -/
def ratioPart (t : BackupProgressTracker) : ℚ :=
  if t.current_folder ≠ "" ∧ 0 < t.total_files then
    (t.completed_files : ℚ) / (t.total_files : ℚ)
  else 0

/-- Normal form of `get_overall_progress` away from the degenerate and
all-complete branches. -/
lemma get_overall_progress_eq_floor (t : BackupProgressTracker)
    (h0 : ¬ t.total_folders = 0) (h1 : ¬ t.total_folders ≤ t.completed_folders) :
    get_overall_progress t =
      ⌊(((t.completed_folders : ℚ) + ratioPart t) / (t.total_folders : ℚ)) * 100⌋ := by
  unfold get_overall_progress ratioPart
  rw [if_neg h0, if_neg h1]
  by_cases h2 : t.current_folder ≠ "" ∧ 0 < t.total_files
  · rw [if_pos h2, if_pos h2]
    congr 1
    rw [add_div]
  · rw [if_neg h2, if_neg h2]
    congr 1
    rw [add_zero]

/-- The fractional contribution is nonnegative. -/
lemma ratioPart_nonneg (t : BackupProgressTracker) : 0 ≤ ratioPart t := by
  unfold ratioPart
  split
  · positivity
  · exact le_refl 0

/-- The fractional contribution is at most one while the completed count
stays within the total. -/
lemma ratioPart_le_one (t : BackupProgressTracker)
    (hfiles : t.completed_files ≤ t.total_files) : ratioPart t ≤ 1 := by
  unfold ratioPart
  split
  · next h =>
      exact (div_le_one (by exact_mod_cast h.2)).mpr (by exact_mod_cast hfiles)
  · norm_num

/-- Effect of `complete_file` on the fractional contribution. -/
lemma ratioPart_complete_file (t : BackupProgressTracker) :
    ratioPart (complete_file t) =
      if t.current_folder ≠ "" ∧ 0 < t.total_files then
        ((t.completed_files : ℚ) + 1) / (t.total_files : ℚ)
      else 0 := by
  unfold ratioPart complete_file
  by_cases h2 : t.current_folder ≠ "" ∧ 0 < t.total_files
  · rw [if_pos h2, if_pos h2]
    push_cast
    ring_nf
  · rw [if_neg h2, if_neg h2]

/-- The fractional contribution is unchanged by `complete_folder`. -/
lemma ratioPart_complete_folder (t : BackupProgressTracker) :
    ratioPart (complete_folder t) = ratioPart t := by
  unfold ratioPart complete_folder
  rfl

/-- Monotonicity of the percentage formula in both counters. -/
lemma percent_formula_mono (T c c' : ℕ) (r r' : ℚ) (hc : c ≤ c') (hr : r ≤ r') :
    ⌊(((c : ℚ) + r) / (T : ℚ)) * 100⌋ ≤ ⌊(((c' : ℚ) + r') / (T : ℚ)) * 100⌋ := by
  apply Int.floor_le_floor
  have h := add_le_add (show (c : ℚ) ≤ (c' : ℚ) by exact_mod_cast hc) hr
  rcases Nat.eq_zero_or_pos T with hT | hT
  · subst hT
    norm_num
  · have hTQ : (0 : ℚ) < (T : ℚ) := by exact_mod_cast hT
    exact mul_le_mul_of_nonneg_right ((div_le_div_iff_of_pos_right hTQ).mpr h) (by norm_num)

/-- C6 amended: for tracker states consistent with the declared totals
(`completed_files ≤ total_files`), the overall percentage never decreases
under `complete_file` or `complete_folder`; but it equals 100 not only when
all folders are complete — it also equals 100 in the boundary states where
all folders but one are complete and the current folder's running file count
is fully completed. -/
theorem c6_monotone_with_early_100 (t : BackupProgressTracker)
    (hfiles : t.completed_files ≤ t.total_files) :
    get_overall_progress t ≤ get_overall_progress (complete_file t) ∧
    get_overall_progress t ≤ get_overall_progress (complete_folder t) ∧
    (get_overall_progress t = 100 ↔
      t.total_folders ≠ 0 ∧
        (t.total_folders ≤ t.completed_folders ∨
          (t.current_folder ≠ "" ∧ 0 < t.total_files ∧
            t.completed_folders + 1 = t.total_folders ∧
            t.completed_files = t.total_files))) := by
  by_cases h0 : t.total_folders = 0
  · refine ⟨?_, ?_, ?_⟩
    · simp [get_overall_progress, complete_file, h0]
    · simp [get_overall_progress, complete_folder, h0]
    · simp [get_overall_progress, h0]
  · by_cases h1 : t.total_folders ≤ t.completed_folders
    · have e1 : get_overall_progress t = 100 := by
        simp [get_overall_progress, h0, h1]
      have e2 : get_overall_progress (complete_file t) = 100 := by
        simp [get_overall_progress, complete_file, h0, h1]
      have e3 : get_overall_progress (complete_folder t) = 100 := by
        have h1' : t.total_folders ≤ t.completed_folders + 1 := le_trans h1 (Nat.le_succ _)
        simp [get_overall_progress, complete_folder, h0, h1']
      rw [e1, e2, e3]
      exact ⟨le_refl _, le_refl _, by simp [h0, h1]⟩
    · have hTQ : (0 : ℚ) < (t.total_folders : ℚ) := by
        exact_mod_cast Nat.pos_of_ne_zero h0
      have hfloor100 : ⌊(100 : ℚ)⌋ = 100 := by norm_num
      refine ⟨?_, ?_, ?_⟩
      · -- complete_file is monotone
        rw [get_overall_progress_eq_floor t h0 h1,
          get_overall_progress_eq_floor (complete_file t) h0 h1]
        rw [ratioPart_complete_file]
        show ⌊(((t.completed_folders : ℚ) + ratioPart t) / (t.total_folders : ℚ)) * 100⌋ ≤ _
        apply percent_formula_mono _ _ _ _ _ (le_refl _)
        unfold ratioPart
        by_cases h2 : t.current_folder ≠ "" ∧ 0 < t.total_files
        · rw [if_pos h2, if_pos h2]
          have htfQ : (0 : ℚ) < (t.total_files : ℚ) := by exact_mod_cast h2.2
          gcongr
          linarith
        · rw [if_neg h2, if_neg h2]
      · -- complete_folder is monotone
        by_cases h1' : t.total_folders ≤ t.completed_folders + 1
        · have e3 : get_overall_progress (complete_folder t) = 100 := by
            simp [get_overall_progress, complete_folder, h0, h1']
          rw [e3, get_overall_progress_eq_floor t h0 h1]
          have h4 : (t.completed_folders : ℚ) + ratioPart t ≤ (t.total_folders : ℚ) := by
            have hrle := ratioPart_le_one t hfiles
            have hcT : (t.completed_folders : ℚ) + 1 ≤ (t.total_folders : ℚ) := by
              exact_mod_cast Nat.succ_le_of_lt (Nat.lt_of_not_le h1)
            linarith
          have hx : ((t.completed_folders : ℚ) + ratioPart t) / (t.total_folders : ℚ) * 100
              ≤ 100 := by
            have := (div_le_one hTQ).mpr h4
            linarith
          calc ⌊((t.completed_folders : ℚ) + ratioPart t) / (t.total_folders : ℚ) * 100⌋
              ≤ ⌊(100 : ℚ)⌋ := Int.floor_le_floor hx
            _ = 100 := hfloor100
        · rw [get_overall_progress_eq_floor t h0 h1,
            get_overall_progress_eq_floor (complete_folder t) h0 h1']
          rw [ratioPart_complete_folder]
          exact percent_formula_mono _ _ _ _ _ (Nat.le_succ _) (le_refl _)
      · -- characterization of 100
        rw [get_overall_progress_eq_floor t h0 h1]
        constructor
        · intro h
          refine ⟨h0, ?_⟩
          have hfl := Int.floor_le
            (((t.completed_folders : ℚ) + ratioPart t) / (t.total_folders : ℚ) * 100)
          rw [h] at hfl
          push_cast at hfl
          have hx1 : 1 ≤ ((t.completed_folders : ℚ) + ratioPart t) / (t.total_folders : ℚ) := by
            linarith
          have hTle : (t.total_folders : ℚ) ≤ (t.completed_folders : ℚ) + ratioPart t :=
            (one_le_div hTQ).mp hx1
          by_cases h2 : t.current_folder ≠ "" ∧ 0 < t.total_files
          · have hr : ratioPart t = (t.completed_files : ℚ) / (t.total_files : ℚ) := by
              unfold ratioPart
              rw [if_pos h2]
            rw [hr] at hTle
            have htfQ : (0 : ℚ) < (t.total_files : ℚ) := by exact_mod_cast h2.2
            have hrle : (t.completed_files : ℚ) / (t.total_files : ℚ) ≤ 1 :=
              (div_le_one htfQ).mpr (by exact_mod_cast hfiles)
            have hTcN : t.total_folders ≤ t.completed_folders + 1 := by
              exact_mod_cast (by linarith :
                (t.total_folders : ℚ) ≤ (t.completed_folders : ℚ) + 1)
            have hTeq : t.completed_folders + 1 = t.total_folders := by omega
            have h1le : 1 ≤ (t.completed_files : ℚ) / (t.total_files : ℚ) := by
              have hTQ' : ((t.completed_folders : ℚ) + 1) = (t.total_folders : ℚ) := by
                exact_mod_cast hTeq
              linarith
            have htfcf : t.total_files ≤ t.completed_files := by
              exact_mod_cast (one_le_div htfQ).mp h1le
            exact Or.inr ⟨h2.1, h2.2, hTeq, le_antisymm hfiles htfcf⟩
          · have hr : ratioPart t = 0 := by
              unfold ratioPart
              rw [if_neg h2]
            rw [hr, add_zero] at hTle
            exact absurd (by exact_mod_cast hTle) h1
        · rintro ⟨-, hcase | ⟨hcur, htf, hTeq, hcfeq⟩⟩
          · exact absurd hcase h1
          · have htfQ : (t.total_files : ℚ) ≠ 0 := Nat.cast_ne_zero.mpr (by omega)
            have hr : ratioPart t = 1 := by
              unfold ratioPart
              rw [if_pos ⟨hcur, htf⟩, hcfeq]
              exact div_self htfQ
            rw [hr]
            have hceq : ((t.completed_folders : ℚ) + 1) = (t.total_folders : ℚ) := by
              exact_mod_cast hTeq
            rw [hceq, div_self (ne_of_gt hTQ)]
            norm_num

/-- Witness for amended C6 at a concrete consistent state. -/
theorem c6_monotone_with_early_100_witness :
    get_overall_progress (BackupProgressTracker.mk 2 0 3 1 "A") ≤
      get_overall_progress (complete_file (BackupProgressTracker.mk 2 0 3 1 "A")) :=
  (c6_monotone_with_early_100 (BackupProgressTracker.mk 2 0 3 1 "A") (by decide)).1

/-- Counterexample to C6: the sequence start_pass over two folders,
start_folder with one file, complete_file, complete_folder is consistent with
the declared totals, yet the percentage is exactly 100 with only one of the
two folders completed. -/
theorem c6_early_100_counterexample :
    get_overall_progress
      (complete_folder (complete_file (start_folder (start_backup 2) "A" 1))) = 100 ∧
    (complete_folder (complete_file (start_folder (start_backup 2) "A" 1))).completed_folders
      = 1 ∧
    (complete_folder (complete_file (start_folder (start_backup 2) "A" 1))).total_folders
      = 2 := by
  refine ⟨?_, by decide, by decide⟩
  norm_num [start_backup, start_folder, complete_file, complete_folder,
    get_overall_progress]
  decide

/-!
Claim C4: the spec says every processed file — uploaded, failed, or
skipped — gets exactly one `complete_file` call and a progress callback.  In
the code, a file whose upload fails gets neither: only the error callback
fires, and the loop moves on (the pass still ends with result True).
-/

/-- Recognizes error events. -/
def isErrorEvent (e : Event) : Bool :=
  match e with
  | Event.error _ => true
  | _ => false

/-- Recognizes progress events. -/
def isProgressEvent (e : Event) : Bool :=
  match e with
  | Event.progress _ => true
  | _ => false

/-- A successful upload reports True whenever `stat()` works (the only
modelled upload failure is the metadata-time `stat()` raise). -/
lemma upload_file_statOk (s : StoreState) (f : LocalFile) (b k : String)
    (h : f.statOk = true) : (upload_file s f b k).2 = true := by
  unfold upload_file
  by_cases hh : get_file_hash f = ""
  · simp [hh]
  · simp [hh, h]

/-- Single-folder plan refuting C4: one file whose `stat()` raises at upload
time. -/
def c4folder : FolderPlan :=
  FolderPlan.mk "A" "b" [("f", LocalFile.mk 10 "d" true false)]

/-- Counterexample to C4: the failed-upload file is decided Upload and its
failure is reported via the error callback, yet `complete_file` is never
invoked for it and no progress callback fires in the file loop (the only
progress events are the folder-completion one and the forced final 100);
the pass result is still True. -/
theorem c4_failed_upload_counterexample :
    (execute_backup [c4folder] true true none emptyStore).1.decided =
      [("A/f", Decision.upload)] ∧
    (execute_backup [c4folder] true true none emptyStore).1.tracker.completed_files = 0 ∧
    Event.error "Failed to upload: f" ∈
      (execute_backup [c4folder] true true none emptyStore).1.events ∧
    (execute_backup [c4folder] true true none emptyStore).1.events.countP isProgressEvent
      = 2 ∧
    (execute_backup [c4folder] true true none emptyStore).2 = true := by
  decide

/-- C4 amended: for a file whose decision is a skip or whose upload succeeds,
`complete_file` is invoked exactly once and exactly one progress callback and
no error callback is emitted; for a file whose upload fails, `complete_file`
is not invoked and no progress callback is emitted for it — exactly one error
callback fires instead; the loop continues either way, and a pass that is
never cancelled returns True regardless of per-file failures. -/
theorem c4_per_file_accounting (w : World) (bucket folderName : String)
    (entry : String × LocalFile) (incremental dedup : Bool)
    (plan : List FolderPlan) (store : StoreState) :
    ((processFile w bucket folderName entry incremental dedup).tracker.completed_files =
      w.tracker.completed_files +
        (if should_upload_decision (clientOfStore w.store) entry.2 bucket
              (calculate_s3_key folderName entry.1) incremental dedup = Decision.upload ∧
            (upload_file w.store entry.2 bucket
              (calculate_s3_key folderName entry.1)).2 = false
          then 0 else 1)) ∧
    ((processFile w bucket folderName entry incremental dedup).events.countP isErrorEvent =
      w.events.countP isErrorEvent +
        (if should_upload_decision (clientOfStore w.store) entry.2 bucket
              (calculate_s3_key folderName entry.1) incremental dedup = Decision.upload ∧
            (upload_file w.store entry.2 bucket
              (calculate_s3_key folderName entry.1)).2 = false
          then 1 else 0)) ∧
    ((processFile w bucket folderName entry incremental dedup).events.countP isProgressEvent =
      w.events.countP isProgressEvent +
        (if should_upload_decision (clientOfStore w.store) entry.2 bucket
              (calculate_s3_key folderName entry.1) incremental dedup = Decision.upload ∧
            (upload_file w.store entry.2 bucket
              (calculate_s3_key folderName entry.1)).2 = false
          then 0 else 1)) ∧
    (execute_backup plan incremental dedup none store).2 = true := by
  refine ⟨?_, ?_, ?_, by simp [execute_backup, readFlag, flagValue]⟩
  all_goals
    unfold processFile
    rcases hd : should_upload_decision (clientOfStore w.store) entry.2 bucket
      (calculate_s3_key folderName entry.1) incremental dedup with _ | _ | _ <;>
    rcases hu : upload_file w.store entry.2 bucket
      (calculate_s3_key folderName entry.1) with ⟨s1, b1⟩ <;>
    cases b1 <;>
    simp [hd, hu, emit, complete_file, List.countP_append, isErrorEvent, isProgressEvent]

/-!
Claim C7: cancellation after n of m files — the pass returns False,
cancellation is reported via status and not via error, the remaining files
are never decided upon or uploaded, and exactly n files are counted
complete.
-/

/-- Effects of processing one file whose `stat()` works: the completed-file
counter advances by one, its key is appended to the decision log, the flag is
not read, no error event is added, and any upload is logged under its key. -/
lemma processFile_statOk (w : World) (bucket folderName : String)
    (entry : String × LocalFile) (incremental dedup : Bool)
    (h : entry.2.statOk = true) :
    (processFile w bucket folderName entry incremental dedup).tracker.completed_files
      = w.tracker.completed_files + 1 ∧
    (processFile w bucket folderName entry incremental dedup).decided.map Prod.fst
      = w.decided.map Prod.fst ++ [calculate_s3_key folderName entry.1] ∧
    (processFile w bucket folderName entry incremental dedup).flagReads = w.flagReads ∧
    (∀ m, Event.error m ∈ (processFile w bucket folderName entry incremental dedup).events →
      Event.error m ∈ w.events) ∧
    (∀ k, k ∈ (processFile w bucket folderName entry incremental dedup).uploads →
      k ∈ w.uploads ∨ k = calculate_s3_key folderName entry.1) := by
  unfold processFile
  rcases hd : should_upload_decision (clientOfStore w.store) entry.2 bucket
    (calculate_s3_key folderName entry.1) incremental dedup with _ | _ | _
  · rcases hu : upload_file w.store entry.2 bucket
      (calculate_s3_key folderName entry.1) with ⟨s1, b1⟩
    cases b1
    · have hok := upload_file_statOk w.store entry.2 bucket
        (calculate_s3_key folderName entry.1) h
      rw [hu] at hok
      exact absurd hok (by simp)
    · simp [hd, hu, emit, complete_file, List.map_append]
  · simp [hd, emit, complete_file, List.map_append]
    exact fun k hk => Or.inl hk
  · simp [hd, emit, complete_file, List.map_append]
    exact fun k hk => Or.inl hk

/-- Running the file loop with the cancellation flag turning true at its
(n+1)-st poll processes exactly the first n files and then breaks: n files
complete, the first n keys decided in order, n+1 polls consumed, no error
events added, and every upload is of one of the first n keys. -/
lemma runFiles_cancel_prefix (bucket folderName : String) (incremental dedup : Bool) :
    ∀ (files : List (String × LocalFile)) (n : Nat) (w : World),
      n < files.length →
      (∀ e ∈ files, (e.2).statOk = true) →
      (runFiles (some (w.flagReads + n)) w bucket folderName files
        incremental dedup).tracker.completed_files
          = w.tracker.completed_files + n ∧
      (runFiles (some (w.flagReads + n)) w bucket folderName files
        incremental dedup).decided.map Prod.fst
          = w.decided.map Prod.fst ++
            (files.take n).map (fun e => calculate_s3_key folderName e.1) ∧
      (runFiles (some (w.flagReads + n)) w bucket folderName files
        incremental dedup).flagReads = w.flagReads + n + 1 ∧
      (∀ m, Event.error m ∈ (runFiles (some (w.flagReads + n)) w bucket folderName files
        incremental dedup).events → Event.error m ∈ w.events) ∧
      (∀ k, k ∈ (runFiles (some (w.flagReads + n)) w bucket folderName files
        incremental dedup).uploads → k ∈ w.uploads ∨
          k ∈ (files.take n).map (fun e => calculate_s3_key folderName e.1)) := by
  intro files
  induction files with
  | nil =>
      intro n w hn hok
      exact absurd hn (by simp)
  | cons e rest ih =>
      intro n w hn hok
      cases n with
      | zero =>
          have hflag : flagValue (some (w.flagReads + 0)) w.flagReads = true := by
            simp [flagValue]
          unfold runFiles
          simp only [readFlag, hflag]
          refine ⟨rfl, by simp, by simp, fun m hm => hm, fun k hk => Or.inl hk⟩
      | succ kk =>
          have hflag : flagValue (some (w.flagReads + (kk + 1))) w.flagReads = false := by
            simp [flagValue]
          unfold runFiles
          simp only [readFlag, hflag]
          have hok1 : e.2.statOk = true := hok e (by simp)
          have hokr : ∀ x ∈ rest, (x.2).statOk = true :=
            fun x hx => hok x (by simp [hx])
          have hpf := processFile_statOk
            (World.mk w.store w.tracker w.events (w.flagReads + 1) w.decided w.uploads)
            bucket folderName e incremental dedup hok1
          have hp1 : (processFile
              (World.mk w.store w.tracker w.events (w.flagReads + 1) w.decided w.uploads)
              bucket folderName e incremental dedup).tracker.completed_files
                = w.tracker.completed_files + 1 := hpf.1
          have hp2 : (processFile
              (World.mk w.store w.tracker w.events (w.flagReads + 1) w.decided w.uploads)
              bucket folderName e incremental dedup).decided.map Prod.fst
                = w.decided.map Prod.fst ++ [calculate_s3_key folderName e.1] := hpf.2.1
          have hp3 : (processFile
              (World.mk w.store w.tracker w.events (w.flagReads + 1) w.decided w.uploads)
              bucket folderName e incremental dedup).flagReads = w.flagReads + 1 := hpf.2.2.1
          have hp4 : ∀ m, Event.error m ∈ (processFile
              (World.mk w.store w.tracker w.events (w.flagReads + 1) w.decided w.uploads)
              bucket folderName e incremental dedup).events → Event.error m ∈ w.events :=
            hpf.2.2.2.1
          have hp5 : ∀ k, k ∈ (processFile
              (World.mk w.store w.tracker w.events (w.flagReads + 1) w.decided w.uploads)
              bucket folderName e incremental dedup).uploads →
                k ∈ w.uploads ∨ k = calculate_s3_key folderName e.1 := hpf.2.2.2.2
          set wp := processFile
            (World.mk w.store w.tracker w.events (w.flagReads + 1) w.decided w.uploads)
            bucket folderName e incremental dedup with hwp
          have hcf : (some (w.flagReads + (kk + 1)) : Option Nat)
              = some (wp.flagReads + kk) := by
            rw [hp3]
            exact congrArg some (by omega)
          rw [hcf]
          have hrec := ih kk wp (by simpa using Nat.lt_of_succ_lt_succ hn) hokr
          refine ⟨?_, ?_, ?_, ?_, ?_⟩
          · rw [hrec.1, hp1]
            omega
          · rw [hrec.2.1, hp2]
            simp
          · rw [hrec.2.2.1, hp3]
            omega
          · intro m hm
            exact hp4 m (hrec.2.2.2.1 m hm)
          · intro k hk
            rcases hrec.2.2.2.2 k hk with hk2 | hk2
            · rcases hp5 k hk2 with hk3 | hk3
              · exact Or.inl hk3
              · exact Or.inr (by simp [hk3])
            · exact Or.inr (by simpa using Or.inr hk2)

/-- C7: when the cancellation flag becomes set at the (1+n)-th flag poll of
the pass — the pass polls once before the folder and once before each file,
so this is the state after exactly n of the folder's m files have been
completed — the pass returns False, reports cancellation via the status
callback and emits no error callback, decides upon and uploads only the
first n files, and the completed-file counter is exactly n. -/
theorem c7_cancellation_mid_folder (folderName bucket : String)
    (files : List (String × LocalFile)) (n : Nat) (incremental dedup : Bool)
    (store : StoreState)
    (hn : n < files.length)
    (hok : ∀ e ∈ files, (e.2).statOk = true) :
    (execute_backup [FolderPlan.mk folderName bucket files] incremental dedup
      (some (1 + n)) store).2 = false ∧
    Event.status "Backup cancelled" ∈
      (execute_backup [FolderPlan.mk folderName bucket files] incremental dedup
        (some (1 + n)) store).1.events ∧
    (∀ m, Event.error m ∉
      (execute_backup [FolderPlan.mk folderName bucket files] incremental dedup
        (some (1 + n)) store).1.events) ∧
    (execute_backup [FolderPlan.mk folderName bucket files] incremental dedup
      (some (1 + n)) store).1.tracker.completed_files = n ∧
    (execute_backup [FolderPlan.mk folderName bucket files] incremental dedup
      (some (1 + n)) store).1.decided.map Prod.fst
        = (files.take n).map (fun e => calculate_s3_key folderName e.1) ∧
    (∀ k, k ∈ (execute_backup [FolderPlan.mk folderName bucket files] incremental dedup
      (some (1 + n)) store).1.uploads →
        k ∈ (files.take n).map (fun e => calculate_s3_key folderName e.1)) := by
  have hrun := runFiles_cancel_prefix bucket folderName incremental dedup files n
    (World.mk store (start_folder (start_backup 1) folderName files.length)
      [Event.status ("Backing up: " ++ folderName)] 1 [] []) hn hok
  have h1 : (runFiles (some (1 + n))
      (World.mk store (start_folder (start_backup 1) folderName files.length)
        [Event.status ("Backing up: " ++ folderName)] 1 [] [])
      bucket folderName files incremental dedup).tracker.completed_files = n := by
    have := hrun.1
    simpa [start_folder, start_backup] using this
  have h2 : (runFiles (some (1 + n))
      (World.mk store (start_folder (start_backup 1) folderName files.length)
        [Event.status ("Backing up: " ++ folderName)] 1 [] [])
      bucket folderName files incremental dedup).decided.map Prod.fst
        = (files.take n).map (fun e => calculate_s3_key folderName e.1) := by
    have := hrun.2.1
    simpa using this
  have h3 : (runFiles (some (1 + n))
      (World.mk store (start_folder (start_backup 1) folderName files.length)
        [Event.status ("Backing up: " ++ folderName)] 1 [] [])
      bucket folderName files incremental dedup).flagReads = 1 + n + 1 := hrun.2.2.1
  have h4 : ∀ m, Event.error m ∈ (runFiles (some (1 + n))
      (World.mk store (start_folder (start_backup 1) folderName files.length)
        [Event.status ("Backing up: " ++ folderName)] 1 [] [])
      bucket folderName files incremental dedup).events → False := by
    intro m hm
    have := hrun.2.2.2.1 m hm
    simp at this
  have h5 : ∀ k, k ∈ (runFiles (some (1 + n))
      (World.mk store (start_folder (start_backup 1) folderName files.length)
        [Event.status ("Backing up: " ++ folderName)] 1 [] [])
      bucket folderName files incremental dedup).uploads →
        k ∈ (files.take n).map (fun e => calculate_s3_key folderName e.1) := by
    intro k hk
    have := hrun.2.2.2.2 k hk
    simpa using this
  unfold execute_backup runFolders
  have hflag0 : flagValue (some (1 + n)) 0 = false := by
    simp [flagValue]
  simp only [readFlag, hflag0, emit, runFolders, List.length_cons, List.length_nil,
    List.nil_append, Bool.false_eq_true, if_false]
  set w4 := runFiles (some (1 + n))
    (World.mk store (start_folder (start_backup 1) folderName files.length)
      [Event.status ("Backing up: " ++ folderName)] 1 [] [])
    bucket folderName files incremental dedup with hw4
  have hflagF : flagValue (some (1 + n)) w4.flagReads = true := by
    rw [h3]
    simp [flagValue]
  simp only [hflagF]
  refine ⟨trivial, by simp, ?_, ?_, h2, h5⟩
  · intro m hm
    simp only [List.mem_append] at hm
    rcases hm with (hm | hm) | hm
    · exact h4 m hm
    · simp at hm
    · simp at hm
  · simpa [complete_folder] using h1

/-!
Claim C8: second-pass idempotence.  Supporting definitions and lemmas about
canonical stores (stores whose every object was written by `upload_file`).
-/

/-- Destination key of a folder entry. -/
def keyOf (folderName : String) (e : String × LocalFile) : String :=
  calculate_s3_key folderName e.1

/-- A well-behaved local file: readable, stat-able, with a digest that is
nonempty and free of dashes and quotes (as every md5 hex digest is). -/
def GoodFile (f : LocalFile) : Prop :=
  f.readable = true ∧ f.statOk = true ∧ f.digest ≠ "" ∧
  hasDash f.digest = false ∧ stripQuotes f.digest = f.digest

instance (f : LocalFile) : Decidable (GoodFile f) := by
  unfold GoodFile
  infer_instance

/-- The object `upload_file` stores for a hashable file. -/
def canonObj (f : LocalFile) : ObjectInfo :=
  ObjectInfo.mk f.size f.digest
    [("file-hash", f.digest), ("file-size", toString f.size)]

/-- The store entry `upload_file` creates for a folder entry. -/
def canonPair (folderName : String) (e : String × LocalFile) : String × ObjectInfo :=
  (keyOf folderName e, canonObj e.2)

/-- A successful lookup result is a member of the association list. -/
lemma lookup_mem {β : Type} (l : List (String × β)) (k : String) (v : β)
    (h : l.lookup k = some v) : (k, v) ∈ l := by
  induction l with
  | nil => simp [List.lookup] at h
  | cons a rest ih =>
      by_cases hk : k = a.1
      · subst hk
        rcases a with ⟨a1, a2⟩
        simp [List.lookup] at h
        simp [h]
      · rcases a with ⟨a1, a2⟩
        simp only [List.lookup, beq_false_of_ne hk] at h
        exact List.mem_cons_of_mem _ (ih h)

/-- With no duplicate keys, lookup finds exactly the member entry. -/
lemma lookup_of_mem_nodup {β : Type} (l : List (String × β)) (kv : String × β)
    (hnd : (l.map Prod.fst).Nodup) (hmem : kv ∈ l) : l.lookup kv.1 = some kv.2 := by
  induction l with
  | nil => simp at hmem
  | cons a rest ih =>
      rcases List.mem_cons.mp hmem with heq | hmem2
      · subst heq
        rcases kv with ⟨k1, k2⟩
        simp [List.lookup]
      · have hnd2 : (a.1 :: rest.map Prod.fst).Nodup := by simpa using hnd
        have hne : kv.1 ≠ a.1 := by
          intro he
          exact (List.nodup_cons.mp hnd2).1
            (he ▸ List.mem_map_of_mem Prod.fst hmem2)
        rcases a with ⟨a1, a2⟩
        simp only [List.lookup, beq_false_of_ne hne]
        exact ih (List.nodup_cons.mp hnd2).2 hmem2

/-- A key absent from the association list looks up to none. -/
lemma lookup_eq_none_of_not_mem {β : Type} (l : List (String × β)) (k : String)
    (hk : k ∉ l.map Prod.fst) : l.lookup k = none := by
  induction l with
  | nil => rfl
  | cons a rest ih =>
      have h1 : k ≠ a.1 := fun he => hk (by simp [he])
      rcases a with ⟨a1, a2⟩
      simp only [List.lookup, beq_false_of_ne h1]
      exact ih (fun hm => hk (List.mem_cons_of_mem _ hm))

/-- Storing at a fresh key prepends the new entry. -/
lemma putObject_fresh (store : StoreState) (k : String) (obj : ObjectInfo)
    (hk : k ∉ store.objects.map Prod.fst) :
    (putObject store k obj).objects = (k, obj) :: store.objects := by
  unfold putObject
  simp only [StoreState.mk.injEq]
  congr 1
  apply List.filter_eq_self.mpr
  intro kv hkv
  simp only [bne_iff_ne, ne_eq]
  intro he
  exact hk (he ▸ List.mem_map_of_mem Prod.fst hkv)

/-- Probing the exact key of a canonically stored object of a well-behaved
file decides skip-unchanged: sizes match and the stored integrity tag equals
the local digest. -/
lemma decide_found_canon (store : StoreState) (f : LocalFile) (bucket k : String)
    (dedup : Bool) (hg : GoodFile f)
    (hl : store.objects.lookup k = some (canonObj f)) :
    should_upload_decision (clientOfStore store) f bucket k true dedup
      = Decision.skipUnchanged := by
  obtain ⟨hr, hs, hd, hdash, hsq⟩ := hg
  have hh : get_file_hash f = f.digest := by simp [get_file_hash, hr]
  unfold should_upload_decision clientOfStore
  simp [hs, hh, hd, hl, canonObj, hsq, hdash]

/-- Probing a key absent from the store falls through to the deduplication
branch. -/
lemma decide_noSuchKey (store : StoreState) (f : LocalFile) (bucket k : String)
    (dedup : Bool) (hg : GoodFile f)
    (hnone : store.objects.lookup k = none) :
    should_upload_decision (clientOfStore store) f bucket k true dedup =
      (if dedup && file_content_exists_in_s3 (clientOfStore store) bucket f.digest
       then Decision.skipDuplicate else Decision.upload) := by
  obtain ⟨hr, hs, hd, _, _⟩ := hg
  have hh : get_file_hash f = f.digest := by simp [get_file_hash, hr]
  unfold should_upload_decision clientOfStore
  simp [hs, hh, hd, hnone]

/-- Over a canonical store, a digest-lookup hit names a stored file with that
digest. -/
lemma fcexists_canon_exists (store : StoreState) (bucket h folderName : String)
    (U : List (String × LocalFile))
    (hst : store.objects = U.map (canonPair folderName))
    (hex : file_content_exists_in_s3 (clientOfStore store) bucket h = true) :
    ∃ u ∈ U, u.2.digest = h := by
  unfold file_content_exists_in_s3 clientOfStore at hex
  simp only at hex
  rw [List.any_eq_true] at hex
  obtain ⟨k, hkmem, hobj⟩ := hex
  unfold objHasHash at hobj
  cases hl : store.objects.lookup k with
  | none => simp [clientOfStore, hl] at hobj
  | some v =>
      simp only [clientOfStore, hl] at hobj
      have hmeta : v.metadata.lookup "file-hash" = some h := by
        simpa using hobj
      have hmem : (k, v) ∈ store.objects := lookup_mem _ _ _ hl
      rw [hst] at hmem
      obtain ⟨u, hu, hcp⟩ := List.mem_map.mp hmem
      have hv : v = canonObj u.2 := (congrArg Prod.snd hcp).symm
      refine ⟨u, hu, ?_⟩
      rw [hv] at hmeta
      simpa [canonObj] using hmeta

/-- Over a canonical store with distinct keys, every stored file's digest is
found by the digest lookup. -/
lemma fcexists_canon_of_witness (store : StoreState) (bucket folderName : String)
    (U : List (String × LocalFile)) (u : String × LocalFile)
    (hst : store.objects = U.map (canonPair folderName))
    (hnd : (U.map (keyOf folderName)).Nodup)
    (hu : u ∈ U) :
    file_content_exists_in_s3 (clientOfStore store) bucket u.2.digest = true := by
  have hknd : (store.objects.map Prod.fst).Nodup := by
    rw [hst, List.map_map]
    simpa [Function.comp_def, canonPair] using hnd
  have hlk : store.objects.lookup (keyOf folderName u) = some (canonObj u.2) := by
    have := lookup_of_mem_nodup store.objects (canonPair folderName u) hknd
      (by rw [hst]; exact List.mem_map_of_mem _ hu)
    simpa [canonPair] using this
  unfold file_content_exists_in_s3 clientOfStore
  simp only
  rw [List.any_eq_true]
  refine ⟨keyOf folderName u, ?_, ?_⟩
  · rw [hst, List.map_map]
    have : (Prod.fst ∘ canonPair folderName) u ∈
        U.map (Prod.fst ∘ canonPair folderName) := List.mem_map_of_mem _ hu
    simpa [Function.comp_def, canonPair] using this
  · unfold objHasHash
    simp [clientOfStore, hlk, canonObj]

/-- For a well-behaved file the upload stores exactly the canonical object
and succeeds. -/
lemma upload_file_canon (store : StoreState) (f : LocalFile) (bucket k : String)
    (hg : GoodFile f) :
    upload_file store f bucket k = (putObject store k (canonObj f), true) := by
  obtain ⟨hr, hs, hd, _, _⟩ := hg
  have hh : get_file_hash f = f.digest := by simp [get_file_hash, hr]
  unfold upload_file canonObj
  rw [hh]
  simp [hd, hs]

/-- Processing a file whose decision is a skip leaves the store and the
upload log unchanged and appends the decision. -/
lemma processFile_skip (w : World) (bucket folderName : String)
    (entry : String × LocalFile) (incremental dedup : Bool) (d : Decision)
    (hd : should_upload_decision (clientOfStore w.store) entry.2 bucket
      (calculate_s3_key folderName entry.1) incremental dedup = d)
    (hne : d ≠ Decision.upload) :
    (processFile w bucket folderName entry incremental dedup).store = w.store ∧
    (processFile w bucket folderName entry incremental dedup).uploads = w.uploads ∧
    (processFile w bucket folderName entry incremental dedup).decided
      = w.decided ++ [(calculate_s3_key folderName entry.1, d)] := by
  unfold processFile
  cases d with
  | upload => exact absurd rfl hne
  | skipUnchanged => simp [hd, emit]
  | skipDuplicate => simp [hd, emit]

/-- Processing a well-behaved file whose decision is upload stores the
canonical object at its key and logs the upload and the decision. -/
lemma processFile_upload_canon (w : World) (bucket folderName : String)
    (entry : String × LocalFile) (dedup : Bool)
    (hg : GoodFile entry.2)
    (hd : should_upload_decision (clientOfStore w.store) entry.2 bucket
      (calculate_s3_key folderName entry.1) true dedup = Decision.upload) :
    (processFile w bucket folderName entry true dedup).store
      = putObject w.store (calculate_s3_key folderName entry.1) (canonObj entry.2) ∧
    (processFile w bucket folderName entry true dedup).uploads
      = w.uploads ++ [calculate_s3_key folderName entry.1] ∧
    (processFile w bucket folderName entry true dedup).decided
      = w.decided ++ [(calculate_s3_key folderName entry.1, Decision.upload)] := by
  have hu := upload_file_canon w.store entry.2 bucket
    (calculate_s3_key folderName entry.1) hg
  unfold processFile
  simp [hd, hu, emit]

/-- One step of the never-cancelled file loop. -/
lemma runFiles_none_cons (w : World) (bucket folderName : String)
    (e : String × LocalFile) (rest : List (String × LocalFile))
    (incremental dedup : Bool) :
    runFiles none w bucket folderName (e :: rest) incremental dedup
      = runFiles none
          (processFile (World.mk w.store w.tracker w.events (w.flagReads + 1)
            w.decided w.uploads) bucket folderName e incremental dedup)
          bucket folderName rest incremental dedup := rfl

/-- Running one pass of the file loop from a canonical store with fresh,
distinct keys: the resulting store is canonical for a superset U2 of the
uploaded set, every processed file is either uploaded or content-covered by
an uploaded file, and every upload is of a U2 key. -/
lemma runFiles_pass1 (bucket folderName : String) (dedup : Bool) :
    ∀ (files : List (String × LocalFile)) (w : World)
      (U done : List (String × LocalFile)),
      (∀ g ∈ files, GoodFile g.2) →
      ((done ++ files).map (keyOf folderName)).Nodup →
      (∀ u ∈ U, u ∈ done) →
      ((U.map (keyOf folderName)).Nodup) →
      w.store.objects = U.map (canonPair folderName) →
      ∃ U2 : List (String × LocalFile),
        (∀ u ∈ U2, u ∈ done ++ files) ∧
        ((U2.map (keyOf folderName)).Nodup) ∧
        (runFiles none w bucket folderName files true dedup).store.objects
          = U2.map (canonPair folderName) ∧
        (∀ u ∈ U, u ∈ U2) ∧
        (∀ g ∈ files, g ∈ U2 ∨
          (dedup = true ∧ ∃ u ∈ U2, u.2.digest = g.2.digest)) ∧
        (∀ k, k ∈ (runFiles none w bucket folderName files true dedup).uploads →
          k ∈ w.uploads ∨ ∃ u ∈ U2, keyOf folderName u = k) := by
  intro files
  induction files with
  | nil =>
      intro w U done hg hnd hUdone hUnd hst
      refine ⟨U, ?_, hUnd, hst, fun u hu => hu, ?_, ?_⟩
      · intro u hu
        exact List.mem_append.mpr (Or.inl (hUdone u hu))
      · intro g hg2
        simp at hg2
      · intro k hk
        exact Or.inl hk
  | cons f rest ih =>
      intro w U done hg hnd hUdone hUnd hst
      rw [runFiles_none_cons]
      have hgf : GoodFile f.2 := hg f (by simp)
      have hgr : ∀ g ∈ rest, GoodFile g.2 := fun g hgm => hg g (by simp [hgm])
      have hknotin : keyOf folderName f ∉ w.store.objects.map Prod.fst := by
        rw [hst, List.map_map]
        intro hmem
        obtain ⟨u, hu, huk⟩ := List.mem_map.mp hmem
        have huk2 : keyOf folderName u = keyOf folderName f := huk
        have hud : u ∈ done := hUdone u hu
        have hdisj := List.disjoint_of_nodup_append
          (by simpa using hnd :
            ((done.map (keyOf folderName)) ++
              ((f :: rest).map (keyOf folderName))).Nodup)
        exact hdisj (huk2 ▸ List.mem_map_of_mem _ hud)
          (List.mem_map_of_mem _ (List.mem_cons_self f rest))
      have hkU : keyOf folderName f ∉ U.map (keyOf folderName) := by
        rw [hst, List.map_map] at hknotin
        exact hknotin
      have hnone : w.store.objects.lookup (keyOf folderName f) = none :=
        lookup_eq_none_of_not_mem _ _ hknotin
      have hdec := decide_noSuchKey w.store f.2 bucket (keyOf folderName f) dedup hgf hnone
      have hnd' : (((done ++ [f]) ++ rest).map (keyOf folderName)).Nodup := by
        have he : (done ++ [f]) ++ rest = done ++ f :: rest := by simp
        rw [he]
        exact hnd
      cases hhit : dedup && file_content_exists_in_s3 (clientOfStore w.store) bucket
          f.2.digest with
      | false =>
          have hdec2 : should_upload_decision (clientOfStore w.store) f.2 bucket
              (keyOf folderName f) true dedup = Decision.upload := by
            rw [hdec, hhit]
            rfl
          have hdecW1 : should_upload_decision
              (clientOfStore (World.mk w.store w.tracker w.events (w.flagReads + 1)
                w.decided w.uploads).store) f.2 bucket
              (calculate_s3_key folderName f.1) true dedup = Decision.upload := hdec2
          have hpu := processFile_upload_canon
            (World.mk w.store w.tracker w.events (w.flagReads + 1) w.decided w.uploads)
            bucket folderName f dedup hgf hdecW1
          have hpfresh : (putObject w.store (calculate_s3_key folderName f.1)
              (canonObj f.2)).objects
                = (calculate_s3_key folderName f.1, canonObj f.2) :: w.store.objects :=
            putObject_fresh w.store _ _ hknotin
          have hstore' : (processFile
              (World.mk w.store w.tracker w.events (w.flagReads + 1) w.decided w.uploads)
              bucket folderName f true dedup).store.objects
                = (f :: U).map (canonPair folderName) := by
            rw [hpu.1]
            rw [hpfresh, hst]
            rfl
          have hUdone' : ∀ u ∈ f :: U, u ∈ done ++ [f] := by
            intro u hu
            rcases List.mem_cons.mp hu with rfl | hu2
            · simp
            · exact List.mem_append.mpr (Or.inl (hUdone u hu2))
          have hUnd' : ((f :: U).map (keyOf folderName)).Nodup := by
            simp only [List.map_cons, List.nodup_cons]
            exact ⟨hkU, hUnd⟩
          obtain ⟨U2, hA, hB, hC, hD, hE, hF⟩ :=
            ih (processFile
              (World.mk w.store w.tracker w.events (w.flagReads + 1) w.decided w.uploads)
              bucket folderName f true dedup) (f :: U) (done ++ [f])
              hgr hnd' hUdone' hUnd' hstore'
          have hfU2 : f ∈ U2 := hD f (by simp)
          refine ⟨U2, ?_, hB, hC, ?_, ?_, ?_⟩
          · intro u hu
            have := hA u hu
            rcases List.mem_append.mp this with h2 | h2
            · rcases List.mem_append.mp h2 with h3 | h3
              · exact List.mem_append.mpr (Or.inl h3)
              · simp at h3
                subst h3
                simp
            · exact List.mem_append.mpr (Or.inr (List.mem_cons_of_mem _ h2))
          · intro u hu
            exact hD u (List.mem_cons_of_mem _ hu)
          · intro g hgm
            rcases List.mem_cons.mp hgm with rfl | hgm2
            · exact Or.inl hfU2
            · exact hE g hgm2
          · intro k hk
            rcases hF k hk with hk2 | hk2
            · rw [hpu.2.1] at hk2
              rcases List.mem_append.mp hk2 with hk3 | hk3
              · exact Or.inl hk3
              · simp at hk3
                exact Or.inr ⟨f, hfU2, hk3.symm⟩
            · exact Or.inr hk2
      | true =>
          obtain ⟨hdt, hfce⟩ : dedup = true ∧
              file_content_exists_in_s3 (clientOfStore w.store) bucket f.2.digest = true := by
            simpa using hhit
          have hdec2 : should_upload_decision (clientOfStore w.store) f.2 bucket
              (keyOf folderName f) true dedup = Decision.skipDuplicate := by
            rw [hdec, hhit]
            rfl
          have hdecW1 : should_upload_decision
              (clientOfStore (World.mk w.store w.tracker w.events (w.flagReads + 1)
                w.decided w.uploads).store) f.2 bucket
              (calculate_s3_key folderName f.1) true dedup = Decision.skipDuplicate := hdec2
          have hps := processFile_skip
            (World.mk w.store w.tracker w.events (w.flagReads + 1) w.decided w.uploads)
            bucket folderName f true dedup Decision.skipDuplicate hdecW1 (by simp)
          obtain ⟨u0, hu0, hu0d⟩ :=
            fcexists_canon_exists w.store bucket f.2.digest folderName U hst hfce
          have hstore' : (processFile
              (World.mk w.store w.tracker w.events (w.flagReads + 1) w.decided w.uploads)
              bucket folderName f true dedup).store.objects
                = U.map (canonPair folderName) := by
            rw [hps.1]
            exact hst
          have hUdone' : ∀ u ∈ U, u ∈ done ++ [f] :=
            fun u hu => List.mem_append.mpr (Or.inl (hUdone u hu))
          obtain ⟨U2, hA, hB, hC, hD, hE, hF⟩ :=
            ih (processFile
              (World.mk w.store w.tracker w.events (w.flagReads + 1) w.decided w.uploads)
              bucket folderName f true dedup) U (done ++ [f])
              hgr hnd' hUdone' hUnd hstore'
          refine ⟨U2, ?_, hB, hC, hD, ?_, ?_⟩
          · intro u hu
            have := hA u hu
            rcases List.mem_append.mp this with h2 | h2
            · rcases List.mem_append.mp h2 with h3 | h3
              · exact List.mem_append.mpr (Or.inl h3)
              · simp at h3
                subst h3
                simp
            · exact List.mem_append.mpr (Or.inr (List.mem_cons_of_mem _ h2))
          · intro g hgm
            rcases List.mem_cons.mp hgm with rfl | hgm2
            · exact Or.inr ⟨hdt, u0, hD u0 hu0, hu0d⟩
            · exact hE g hgm2
          · intro k hk
            rcases hF k hk with hk2 | hk2
            · rw [hps.2.1] at hk2
              exact Or.inl hk2
            · exact Or.inr hk2

/-- Running the file loop over files each of which is either canonically
stored at its own key or (with deduplication on) content-covered elsewhere in
the store: nothing is uploaded, the store is unchanged, every new decision is
a skip, and every canonically stored file is decided skip-unchanged. -/
lemma runFiles_pass2 (bucket folderName : String) (dedup : Bool) :
    ∀ (files : List (String × LocalFile)) (w : World),
      (∀ g ∈ files, GoodFile g.2 ∧
        (w.store.objects.lookup (keyOf folderName g) = some (canonObj g.2) ∨
          (dedup = true ∧
            w.store.objects.lookup (keyOf folderName g) = none ∧
            file_content_exists_in_s3 (clientOfStore w.store) bucket g.2.digest
              = true))) →
      (runFiles none w bucket folderName files true dedup).store = w.store ∧
      (runFiles none w bucket folderName files true dedup).uploads = w.uploads ∧
      (∀ kd ∈ w.decided,
        kd ∈ (runFiles none w bucket folderName files true dedup).decided) ∧
      (∀ kd ∈ (runFiles none w bucket folderName files true dedup).decided,
        kd ∈ w.decided ∨ kd.2 ≠ Decision.upload) ∧
      (∀ g ∈ files,
        w.store.objects.lookup (keyOf folderName g) = some (canonObj g.2) →
        (keyOf folderName g, Decision.skipUnchanged) ∈
          (runFiles none w bucket folderName files true dedup).decided) := by
  intro files
  induction files with
  | nil =>
      intro w hyp
      refine ⟨rfl, rfl, fun kd hkd => hkd, fun kd hkd => Or.inl hkd, ?_⟩
      intro g hgm
      simp at hgm
  | cons f rest ih =>
      intro w hyp
      rw [runFiles_none_cons]
      obtain ⟨hgf, hAB⟩ := hyp f (by simp)
      have hyr : ∀ g ∈ rest, GoodFile g.2 ∧
          (w.store.objects.lookup (keyOf folderName g) = some (canonObj g.2) ∨
            (dedup = true ∧
              w.store.objects.lookup (keyOf folderName g) = none ∧
              file_content_exists_in_s3 (clientOfStore w.store) bucket g.2.digest
                = true)) :=
        fun g hgm => hyp g (by simp [hgm])
      have hd : ∃ d : Decision, d ≠ Decision.upload ∧
          (w.store.objects.lookup (keyOf folderName f) = some (canonObj f.2) →
            d = Decision.skipUnchanged) ∧
          should_upload_decision (clientOfStore w.store) f.2 bucket
            (keyOf folderName f) true dedup = d := by
        rcases hAB with hA | ⟨hdt, hnone, hfce⟩
        · exact ⟨Decision.skipUnchanged, by simp, fun _ => rfl,
            decide_found_canon w.store f.2 bucket (keyOf folderName f) dedup hgf hA⟩
        · refine ⟨Decision.skipDuplicate, by simp, ?_, ?_⟩
          · intro hsome
            rw [hsome] at hnone
            exact absurd hnone (by simp)
          · rw [decide_noSuchKey w.store f.2 bucket (keyOf folderName f) dedup hgf hnone,
              hdt, hfce]
            rfl
      obtain ⟨d, hdne, hdA, hdec⟩ := hd
      have hdecW1 : should_upload_decision
          (clientOfStore (World.mk w.store w.tracker w.events (w.flagReads + 1)
            w.decided w.uploads).store) f.2 bucket
          (calculate_s3_key folderName f.1) true dedup = d := hdec
      have hps := processFile_skip
        (World.mk w.store w.tracker w.events (w.flagReads + 1) w.decided w.uploads)
        bucket folderName f true dedup d hdecW1 hdne
      have hyr2 : ∀ g ∈ rest, GoodFile g.2 ∧
          ((processFile (World.mk w.store w.tracker w.events (w.flagReads + 1)
            w.decided w.uploads) bucket folderName f true dedup).store.objects.lookup
              (keyOf folderName g) = some (canonObj g.2) ∨
            (dedup = true ∧
              (processFile (World.mk w.store w.tracker w.events (w.flagReads + 1)
                w.decided w.uploads) bucket folderName f true dedup).store.objects.lookup
                  (keyOf folderName g) = none ∧
              file_content_exists_in_s3 (clientOfStore
                (processFile (World.mk w.store w.tracker w.events (w.flagReads + 1)
                  w.decided w.uploads) bucket folderName f true dedup).store) bucket
                g.2.digest = true)) := by
        rw [hps.1]
        exact hyr
      obtain ⟨hq1, hq2, hq3, hq4, hq5⟩ :=
        ih (processFile
          (World.mk w.store w.tracker w.events (w.flagReads + 1) w.decided w.uploads)
          bucket folderName f true dedup) hyr2
      have hdecided : (processFile
          (World.mk w.store w.tracker w.events (w.flagReads + 1) w.decided w.uploads)
          bucket folderName f true dedup).decided
            = w.decided ++ [(calculate_s3_key folderName f.1, d)] := hps.2.2
      refine ⟨?_, ?_, ?_, ?_, ?_⟩
      · rw [hq1, hps.1]
      · rw [hq2, hps.2.1]
      · intro kd hkd
        apply hq3
        rw [hdecided]
        exact List.mem_append.mpr (Or.inl hkd)
      · intro kd hkd
        rcases hq4 kd hkd with hk2 | hk2
        · rw [hdecided] at hk2
          rcases List.mem_append.mp hk2 with hk3 | hk3
          · exact Or.inl hk3
          · simp at hk3
            subst hk3
            exact Or.inr hdne
        · exact Or.inr hk2
      · intro g hgm hsome
        rcases List.mem_cons.mp hgm with rfl | hgm2
        · have : d = Decision.skipUnchanged := hdA hsome
          subst this
          apply hq3
          rw [hdecided]
          exact List.mem_append.mpr (Or.inr (by simp [keyOf]))
        · have hsome2 : (processFile
              (World.mk w.store w.tracker w.events (w.flagReads + 1) w.decided w.uploads)
              bucket folderName f true dedup).store.objects.lookup
                (keyOf folderName g) = some (canonObj g.2) := by
            rw [hps.1]
            exact hsome
          exact hq5 g hgm2 hsome2

/-- Projections of a never-cancelled single-folder pass in terms of the bare
file loop: the store, upload log and decision log come straight from the file
loop, and the result is True. -/
lemma execute_single_none (folderName bucket : String)
    (files : List (String × LocalFile)) (incremental dedup : Bool)
    (store : StoreState) :
    (execute_backup [FolderPlan.mk folderName bucket files] incremental dedup
      none store).1.store
        = (runFiles none (World.mk store
            (start_folder (start_backup 1) folderName files.length)
            [Event.status ("Backing up: " ++ folderName)] 1 [] [])
            bucket folderName files incremental dedup).store ∧
    (execute_backup [FolderPlan.mk folderName bucket files] incremental dedup
      none store).1.uploads
        = (runFiles none (World.mk store
            (start_folder (start_backup 1) folderName files.length)
            [Event.status ("Backing up: " ++ folderName)] 1 [] [])
            bucket folderName files incremental dedup).uploads ∧
    (execute_backup [FolderPlan.mk folderName bucket files] incremental dedup
      none store).1.decided
        = (runFiles none (World.mk store
            (start_folder (start_backup 1) folderName files.length)
            [Event.status ("Backing up: " ++ folderName)] 1 [] [])
            bucket folderName files incremental dedup).decided ∧
    (execute_backup [FolderPlan.mk folderName bucket files] incremental dedup
      none store).2 = true := by
  unfold execute_backup runFolders
  simp [readFlag, flagValue, emit, runFolders]

/-- A never-cancelled single-folder pass over a canonical store (one whose
objects are exactly the canonical uploads of a key-distinct subset U1 of the
folder, content-covering every folder file): it uploads nothing, leaves the
store unchanged, decides only skips, and decides skip-unchanged for every
stored file. -/
lemma second_pass_skips (folderName bucket : String)
    (files : List (String × LocalFile)) (dedup : Bool) (store1 : StoreState)
    (U1 : List (String × LocalFile))
    (hGood : ∀ g ∈ files, GoodFile g.2)
    (hNodup : (files.map (keyOf folderName)).Nodup)
    (hU1f : ∀ u ∈ U1, u ∈ files)
    (hU1nd : (U1.map (keyOf folderName)).Nodup)
    (hst1 : store1.objects = U1.map (canonPair folderName))
    (hU1cov : ∀ g ∈ files, g ∈ U1 ∨
      (dedup = true ∧ ∃ u ∈ U1, u.2.digest = g.2.digest)) :
    (execute_backup [FolderPlan.mk folderName bucket files] true dedup none
      store1).1.uploads = [] ∧
    (execute_backup [FolderPlan.mk folderName bucket files] true dedup none
      store1).1.store = store1 ∧
    (∀ kd ∈ (execute_backup [FolderPlan.mk folderName bucket files] true dedup none
      store1).1.decided, kd.2 ≠ Decision.upload) ∧
    (∀ u ∈ U1, (keyOf folderName u, Decision.skipUnchanged) ∈
      (execute_backup [FolderPlan.mk folderName bucket files] true dedup none
        store1).1.decided) := by
  have hkeysnd : (store1.objects.map Prod.fst).Nodup := by
    rw [hst1, List.map_map]
    simpa [Function.comp_def, canonPair] using hU1nd
  have hU1A : ∀ u ∈ U1,
      store1.objects.lookup (keyOf folderName u) = some (canonObj u.2) := by
    intro u hu
    have := lookup_of_mem_nodup store1.objects (canonPair folderName u) hkeysnd
      (by rw [hst1]; exact List.mem_map_of_mem _ hu)
    simpa [canonPair] using this
  have hyp2 : ∀ g ∈ files, GoodFile g.2 ∧
      (store1.objects.lookup (keyOf folderName g) = some (canonObj g.2) ∨
        (dedup = true ∧ store1.objects.lookup (keyOf folderName g) = none ∧
          file_content_exists_in_s3 (clientOfStore store1) bucket g.2.digest
            = true)) := by
    intro g hgm
    refine ⟨hGood g hgm, ?_⟩
    by_cases hgU : g ∈ U1
    · exact Or.inl (hU1A g hgU)
    · rcases hU1cov g hgm with hin | ⟨hdt, u0, hu0, hu0d⟩
      · exact absurd hin hgU
      · refine Or.inr ⟨hdt, ?_, ?_⟩
        · apply lookup_eq_none_of_not_mem
          rw [hst1, List.map_map]
          intro hmem
          obtain ⟨u', hu', huk⟩ := List.mem_map.mp hmem
          have huk2 : keyOf folderName u' = keyOf folderName g := huk
          have heq : u' = g :=
            List.inj_on_of_nodup_map hNodup (hU1f u' hu') hgm huk2
          exact hgU (heq ▸ hu')
        · rw [← hu0d]
          exact fcexists_canon_of_witness store1 bucket folderName U1 u0 hst1 hU1nd hu0
  obtain ⟨hq1, hq2, hq3, hq4, hq5⟩ := runFiles_pass2 bucket folderName dedup files
    (World.mk store1 (start_folder (start_backup 1) folderName files.length)
      [Event.status ("Backing up: " ++ folderName)] 1 [] []) hyp2
  obtain ⟨g2s, g2u, g2d, g2r⟩ :=
    execute_single_none folderName bucket files true dedup store1
  refine ⟨?_, ?_, ?_, ?_⟩
  · rw [g2u, hq2]
  · rw [g2s, hq1]
  · intro kd hkd
    rw [g2d] at hkd
    rcases hq4 kd hkd with h | h
    · simp at h
    · exact h
  · intro u hu
    rw [g2d]
    exact hq5 u (hU1f u hu) (hU1A u hu)

/-- C8 amended: starting from an empty bucket, running the pass twice over
the same unchanged folder (well-behaved files, distinct destination keys)
uploads nothing on the second run, leaves the bucket unchanged, decides only
skips, and decides skip-unchanged for every key the first pass uploaded.  A
pre-populated bucket does not satisfy this (see the counterexample): a
first-pass upload can overwrite the very object whose metadata another
file's first-pass skip-duplicate decision relied on. -/
theorem c8_second_pass_idempotent (folderName bucket : String)
    (files : List (String × LocalFile)) (dedup : Bool)
    (hGood : ∀ g ∈ files, GoodFile g.2)
    (hNodup : (files.map (keyOf folderName)).Nodup) :
    (execute_backup [FolderPlan.mk folderName bucket files] true dedup none
      (execute_backup [FolderPlan.mk folderName bucket files] true dedup none
        emptyStore).1.store).1.uploads = [] ∧
    (execute_backup [FolderPlan.mk folderName bucket files] true dedup none
      (execute_backup [FolderPlan.mk folderName bucket files] true dedup none
        emptyStore).1.store).1.store
      = (execute_backup [FolderPlan.mk folderName bucket files] true dedup none
          emptyStore).1.store ∧
    (∀ kd ∈ (execute_backup [FolderPlan.mk folderName bucket files] true dedup none
      (execute_backup [FolderPlan.mk folderName bucket files] true dedup none
        emptyStore).1.store).1.decided, kd.2 ≠ Decision.upload) ∧
    (∀ k ∈ (execute_backup [FolderPlan.mk folderName bucket files] true dedup none
        emptyStore).1.uploads,
      (k, Decision.skipUnchanged) ∈
        (execute_backup [FolderPlan.mk folderName bucket files] true dedup none
          (execute_backup [FolderPlan.mk folderName bucket files] true dedup none
            emptyStore).1.store).1.decided) := by
  obtain ⟨g1s, g1u, g1d, g1r⟩ :=
    execute_single_none folderName bucket files true dedup emptyStore
  obtain ⟨U1, hU1sub, hU1nd, hU1st, hU1ext, hU1cov, hU1up⟩ :=
    runFiles_pass1 bucket folderName dedup files
      (World.mk emptyStore (start_folder (start_backup 1) folderName files.length)
        [Event.status ("Backing up: " ++ folderName)] 1 [] [])
      [] [] hGood (by simpa using hNodup) (by simp) (by simp) (by simp [emptyStore])
  have hU1f : ∀ u ∈ U1, u ∈ files := fun u hu => by simpa using hU1sub u hu
  have hst1 : (execute_backup [FolderPlan.mk folderName bucket files] true dedup none
      emptyStore).1.store.objects = U1.map (canonPair folderName) := by
    rw [g1s]
    exact hU1st
  obtain ⟨h2u, h2s, h2d, h2skip⟩ := second_pass_skips folderName bucket files dedup
    (execute_backup [FolderPlan.mk folderName bucket files] true dedup none
      emptyStore).1.store U1 hGood hNodup hU1f hU1nd hst1 hU1cov
  refine ⟨h2u, h2s, h2d, ?_⟩
  intro k hk
  rw [g1u] at hk
  rcases hU1up k hk with h | h
  · simp at h
  · obtain ⟨u, hu, huk⟩ := h
    rw [← huk]
    exact h2skip u hu

/-- Folder files for the C7 witness: five well-behaved files. -/
def c7files : List (String × LocalFile) :=
  [("f1", LocalFile.mk 5 "h1" true true), ("f2", LocalFile.mk 5 "h2" true true),
   ("f3", LocalFile.mk 5 "h3" true true), ("f4", LocalFile.mk 5 "h4" true true),
   ("f5", LocalFile.mk 5 "h5" true true)]

/-- Witness for C7 at a concrete input: cancellation after 2 of 5 files. -/
theorem c7_cancellation_mid_folder_witness :
    (2 < c7files.length) ∧
    (execute_backup [FolderPlan.mk "A" "b" c7files] true true (some (1 + 2))
      emptyStore).2 = false ∧
    (execute_backup [FolderPlan.mk "A" "b" c7files] true true (some (1 + 2))
      emptyStore).1.tracker.completed_files = 2 :=
  ⟨by decide,
   (c7_cancellation_mid_folder "A" "b" c7files 2 true true emptyStore (by decide)
     (by decide)).1,
   (c7_cancellation_mid_folder "A" "b" c7files 2 true true emptyStore (by decide)
     (by decide)).2.2.2.1⟩

/-- Folder files for the C8 witness: two identical files. -/
def c8files : List (String × LocalFile) :=
  [("a.txt", LocalFile.mk 10 "d1" true true), ("b.txt", LocalFile.mk 10 "d1" true true)]

/-- Witness for amended C8 at a concrete input. -/
theorem c8_second_pass_idempotent_witness :
    (execute_backup [FolderPlan.mk "A" "b" c8files] true true none
      (execute_backup [FolderPlan.mk "A" "b" c8files] true true none
        emptyStore).1.store).1.uploads = [] :=
  (c8_second_pass_idempotent "A" "b" c8files true (by decide) (by decide)).1

/-- Pre-populated bucket refuting C8 as stated: an old object at key `A/g`
carries `file-hash` metadata `d1`. -/
def c8preStore : StoreState :=
  StoreState.mk [("A/g", ObjectInfo.mk 3 "x" [("file-hash", "d1")])]

/-- Folder refuting C8 as stated: file `f` has digest `d1` (content-covered
only by the pre-existing object) and file `g` overwrites that object. -/
def c8preFiles : List (String × LocalFile) :=
  [("f", LocalFile.mk 10 "d1" true true), ("g", LocalFile.mk 10 "d2" true true)]

/-- Counterexample to C8: over an unchanged folder but a pre-populated
bucket, the first pass skips `f` as a duplicate and uploads `g`, overwriting
the object `f`'s skip relied on; the second pass then uploads `f` — not zero
uploads, and not all SkipUnchanged. -/
theorem c8_second_run_uploads_counterexample :
    ("A/f", Decision.skipDuplicate) ∈
      (execute_backup [FolderPlan.mk "A" "b" c8preFiles] true true none
        c8preStore).1.decided ∧
    (execute_backup [FolderPlan.mk "A" "b" c8preFiles] true true none
      (execute_backup [FolderPlan.mk "A" "b" c8preFiles] true true none
        c8preStore).1.store).1.uploads = ["A/f"] ∧
    ("A/f", Decision.upload) ∈
      (execute_backup [FolderPlan.mk "A" "b" c8preFiles] true true none
        (execute_backup [FolderPlan.mk "A" "b" c8preFiles] true true none
          c8preStore).1.store).1.decided := by
  decide

end BlackBlaze
